import Mathlib

/-!
Shallow embedding of the Snake game in `script.js` (silver-rotary-phone).

The game is a single-threaded state machine.  We model the game state as a
structure and the operations `reset`, `setDirection`, `togglePause`, `tick`,
`gameOver` and `spawnFood` as pure Lean functions over it.

Modelling decisions, all taken from the source:
* Positions are integer pairs (they can leave the grid transiently when the
  candidate next head is computed, hence `Int`).
* The four direction objects `Directions.Up/Down/Left/Right` are an inductive
  type with their unit vectors as projections; `setDirection` receives an
  `Option Dir` because the key/dpad lookup can produce `undefined` (the
  `if (!dir) return;` branch).
* `Math.random()`-driven choices are threaded as an explicit `Nat` parameter
  `r`; `randomInt(n)` yields a value in `[0, n)`, modelled as `r % n`.
* `localStorage` holds the single key "snake-high-score"; it is threaded
  through the state as `storage : Option String` (`none` = key absent).
* `Number(s)` applied to the stored string can yield `NaN` (for a corrupt
  value); `bestScore : Option Int` uses `none` for `NaN`, and `jsGt` models
  the JS `>` comparison, which is false whenever one side is `NaN`.
* Display-only effects (`updateHud`, overlay, canvas) and the timing fields
  `lastTickAt`/`accumulator` (real-time resynchronisation) are outside the
  state machine and are omitted; no claim mentions them.
* `Math.floor(interval * 0.92)` on doubles is modelled by the exact rational
  floor `interval * 92 / 100`.  The double `0.92` rounds to just below
  `23/25`, so the two floors can only differ when `interval * 23 / 25` is an
  integer, i.e. when `interval` is a multiple of 25; the intervals reachable
  from `BASE_SPEED_MS = 120` are 120, 110, 101, 92, 84, 77, 70, 64, 58, 53,
  48 and 45, none of which is a multiple of 25, so the model agrees with the
  source on every reachable interval.
-/

namespace Snake

/-- Grid width in cells (`GRID_COLUMNS = 21`). -/
def GRID_COLUMNS : Nat := 21

/-- Grid height in cells (`GRID_ROWS = 21`). -/
def GRID_ROWS : Nat := 21

/-- Initial snake length (`INITIAL_SNAKE_LENGTH = 4`). -/
def INITIAL_SNAKE_LENGTH : Nat := 4

/-- Base tick interval in milliseconds (`BASE_SPEED_MS = 120`). -/
def BASE_SPEED_MS : Nat := 120

/-- Points between speed-ups (`SPEEDUP_EVERY_POINTS = 5`). -/
def SPEEDUP_EVERY_POINTS : Nat := 5

/-- Grid cell position. `x` grows rightwards, `y` downwards. -/
structure Pos where
  x : Int
  y : Int
deriving DecidableEq, Repr

/-- Source `posEquals(a, b)`: coordinatewise equality. -/
def posEquals (a b : Pos) : Bool :=
  a.x == b.x && a.y == b.y

/-- The four direction constants of the `Directions` object. -/
inductive Dir where
  | Up
  | Down
  | Left
  | Right
deriving DecidableEq, Repr

/-- The `x` component of a direction vector. -/
def Dir.dx : Dir → Int
  | .Up => 0
  | .Down => 0
  | .Left => -1
  | .Right => 1

/-- The `y` component of a direction vector. -/
def Dir.dy : Dir → Int
  | .Up => -1
  | .Down => 1
  | .Left => 0
  | .Right => 0

/-- Source `isOpposite(a, b)`: the two direction vectors sum to zero. -/
def isOpposite (a b : Dir) : Bool :=
  a.dx + b.dx == 0 && a.dy + b.dy == 0

/-- The mutable fields of the `SnakeGame` instance, plus the one
`localStorage` entry (`storage`) it reads and writes.  `bestScore = none`
models the JS value `NaN`. -/
structure GameState where
  score : Nat
  bestScore : Option Int
  isPaused : Bool
  isGameOver : Bool
  speedIntervalMs : Nat
  pendingDirection : Dir
  currentDirection : Dir
  snake : List Pos
  food : Pos
  storage : Option String
deriving DecidableEq, Repr

/-- All grid cells in the order `spawnFood` builds its `spaces` array:
outer loop over `y`, inner loop over `x`. -/
def allCells : List Pos :=
  (List.range GRID_ROWS).flatMap
    (fun (y : Nat) => (List.range GRID_COLUMNS).map
      (fun (x : Nat) => ⟨Int.ofNat x, Int.ofNat y⟩))

/-- The `empty` array of `spawnFood`: all cells not occupied by the snake.
The source tests membership in a `Set` of `"x,y"` strings; since the key
`x + "," + y` determines the coordinates, that is membership of the cell in
the snake list. -/
def emptyCells (snake : List Pos) : List Pos :=
  allCells.filter (fun p => !snake.contains p)

/-- Source `spawnFood()`: pick `empty[randomInt(empty.length)]` when `empty`
is non-empty, else the fallback cell `(0, 0)`.  The random draw
`randomInt(n) ∈ [0, n)` is modelled by the parameter `r` reduced mod the
length, so each `r < n` realises one possible draw. -/
def spawnFood (snake : List Pos) (r : Nat) : Pos :=
  let empty := emptyCells snake
  if empty.isEmpty then ⟨0, 0⟩ else empty.getD (r % empty.length) ⟨0, 0⟩

/-- Source `startX = Math.floor(GRID_COLUMNS / 3)`. -/
def startX : Int := (GRID_COLUMNS / 3 : Nat)

/-- Source `startY = Math.floor(GRID_ROWS / 2)`. -/
def startY : Int := (GRID_ROWS / 2 : Nat)

/-- The snake array built by the `reset` loop
`for (i = INITIAL_SNAKE_LENGTH - 1; i >= 0; i--) push({x: startX - i, y: startY})`:
indices 3, 2, 1, 0 push x-coordinates `startX - 3 .. startX`, in that order. -/
def initialSnake : List Pos :=
  ((List.range INITIAL_SNAKE_LENGTH).reverse).map
    (fun (i : Nat) => ⟨startX - Int.ofNat i, startY⟩)

/-- Source `reset()`: reinitialise every field except `bestScore` and the
persisted storage; spawn food avoiding the fresh snake.  (The HUD/overlay
updates and `lastTickAt`/`accumulator` timing fields are display/timing
effects outside the model.) -/
def SnakeGame.reset (g : GameState) (r : Nat) : GameState :=
  let snake := initialSnake
  { g with
    score := 0
    isPaused := false
    isGameOver := false
    speedIntervalMs := BASE_SPEED_MS
    pendingDirection := .Right
    currentDirection := .Right
    snake := snake
    food := spawnFood snake r }

/-- Decimal-digit parser used to model JS `Number` on stored strings. -/
def parseDigits (cs : List Char) : Option Nat :=
  if cs.isEmpty then none
  else if cs.all (fun c => c.isDigit) then
    some (cs.foldl (fun a c => a * 10 + (c.toNat - 48)) 0)
  else none

/-- Model of the JS `Number(s)` conversion on the string shapes relevant to
the stored best score: the empty string converts to 0, an optional minus
sign followed by decimal digits converts exactly, and any other string
(e.g. letters, as in a corrupt stored value) yields `NaN`, modelled as
`none`.  (Forms such as exponents, hex or fractions never arise here: the
program only ever writes `String(bestScore)`, a decimal integer.) -/
def jsNumberOfString (s : String) : Option Int :=
  match s.data with
  | [] => some 0
  | '-' :: rest => (parseDigits rest).map (fun n => -(n : Int))
  | cs => (parseDigits cs).map (fun n => (n : Int))

/-- Source constructor line
`this.bestScore = Number(localStorage.getItem("snake-high-score") || 0)`:
a missing key (`null`) and the empty string are falsy, so `|| 0` replaces
them and `Number(0) = 0`; any other string goes through `Number`. -/
def loadBestScore (stored : Option String) : Option Int :=
  match stored with
  | none => some 0
  | some s => if s = "" then some 0 else jsNumberOfString s

/-- Source constructor: read the persisted best score, then `reset()`. -/
def SnakeGame.construct (stored : Option String) (r : Nat) : GameState :=
  SnakeGame.reset
    { score := 0
      bestScore := loadBestScore stored
      isPaused := false
      isGameOver := false
      speedIntervalMs := BASE_SPEED_MS
      pendingDirection := .Right
      currentDirection := .Right
      snake := []
      food := ⟨0, 0⟩
      storage := stored } r

/-- Source `setDirection(dir)`: ignore `undefined`/`null` and any direction
opposite to the current one, otherwise stage it as pending. -/
def setDirection (g : GameState) (dir : Option Dir) : GameState :=
  match dir with
  | none => g
  | some d =>
    if isOpposite d g.currentDirection then g
    else { g with pendingDirection := d }

/-- Source `togglePause()`: no-op when the game is over, otherwise flip the
pause flag.  (Overlay text and the `lastTickAt` resync are display/timing
effects outside the model.) -/
def togglePause (g : GameState) : GameState :=
  if g.isGameOver then g
  else { g with isPaused := !g.isPaused }

/-- The JS `>` comparison `score > bestScore` where `bestScore` may be
`NaN` (`none`): any comparison against `NaN` is false. -/
def jsGt (score : Nat) (best : Option Int) : Bool :=
  match best with
  | none => false
  | some b => (score : Int) > b

/-- Source `gameOver()`: set the flag; persist the score as the new best
exactly when it beats the current best.  (Overlay/HUD effects omitted.) -/
def SnakeGame.gameOver (g : GameState) : GameState :=
  let g1 := { g with isGameOver := true }
  if jsGt g1.score g1.bestScore then
    { g1 with bestScore := some (g1.score : Int), storage := some (toString g1.score) }
  else g1

/-- Candidate next head: a cell plus a direction vector. -/
def nextHeadPos (p : Pos) (d : Dir) : Pos :=
  ⟨p.x + d.dx, p.y + d.dy⟩

/-- The wall test of `tick`:
`nextHead.x < 0 || nextHead.x >= GRID_COLUMNS || nextHead.y < 0 || nextHead.y >= GRID_ROWS`. -/
def outOfBounds (p : Pos) : Bool :=
  p.x < 0 || p.x ≥ (GRID_COLUMNS : Int) || p.y < 0 || p.y ≥ (GRID_ROWS : Int)

/-- The speed-up update of `tick`:
`Math.max(45, Math.floor(speedIntervalMs * 0.92))` (see the header note on
the float model). -/
def speedStep (s : Nat) : Nat :=
  max 45 (s * 92 / 100)

/-- Source `tick()`.  Structure mirrors the source order: the pause/over
guard, the commit of `pendingDirection`, the wall check, the self-collision
scan (`posEquals` against every segment, tail included), the `unshift`, and
then either eat (score, conditional speed-up, respawn food against the
grown snake) or `pop`.  On an empty snake the source would throw reading
`this.snake[0].x`; that is `none`. -/
def SnakeGame.tick (g : GameState) (r : Nat) : Option GameState :=
  if g.isPaused || g.isGameOver then some g
  else
    match g.snake with
    | [] => none
    | headPos :: _ =>
      let g1 := { g with currentDirection := g.pendingDirection }
      let nh := nextHeadPos headPos g1.currentDirection
      if outOfBounds nh then some (SnakeGame.gameOver g1)
      else if g1.snake.any (fun q => posEquals q nh) then some (SnakeGame.gameOver g1)
      else
        let snake1 := nh :: g1.snake
        if posEquals nh g1.food then
          let score1 := g1.score + 1
          let speed1 :=
            if score1 % SPEEDUP_EVERY_POINTS = 0 then speedStep g1.speedIntervalMs
            else g1.speedIntervalMs
          some { g1 with
                 snake := snake1
                 score := score1
                 speedIntervalMs := speed1
                 food := spawnFood snake1 r }
        else
          some { g1 with snake := snake1.dropLast }

/-- Run a whole sequence of `tick()` calls, one random draw per tick. -/
def tickSeq (g : GameState) : List Nat → Option GameState
  | [] => some g
  | r :: rs =>
    match SnakeGame.tick g r with
    | none => none
    | some g1 => tickSeq g1 rs

/-- Statement vocabulary: the tick about to run from `g` would eat the food,
i.e. the guard does not fire, the snake is non-empty, and the candidate next
head (head plus the direction about to be committed) is the food cell. -/
def willEatFood (g : GameState) : Bool :=
  !g.isPaused && !g.isGameOver &&
    (match g.snake with
     | [] => false
     | hd :: _ => posEquals (nextHeadPos hd g.pendingDirection) g.food)

/-- Concrete state used by witnesses: one-cell snake about to eat the food
directly ahead, with the score one short of a speed-up threshold. -/
def witnessEatState : GameState :=
  { score := 4
    bestScore := some 0
    isPaused := false
    isGameOver := false
    speedIntervalMs := 120
    pendingDirection := .Right
    currentDirection := .Right
    snake := [⟨0, 0⟩]
    food := ⟨1, 0⟩
    storage := none }

/-- The state `tick` produces from `witnessEatState` with draw 0: the snake
grew onto the food, the score reached 5, the interval stepped to 110, and
the food respawned on the first free cell in scan order, (2, 0). -/
def witnessEatResult : GameState :=
  { score := 5
    bestScore := some 0
    isPaused := false
    isGameOver := false
    speedIntervalMs := 110
    pendingDirection := .Right
    currentDirection := .Right
    snake := [⟨1, 0⟩, ⟨0, 0⟩]
    food := ⟨2, 0⟩
    storage := none }

/-- Concrete paused state used by witnesses. -/
def pausedWitnessState : GameState :=
  { witnessEatState with isPaused := true }

/-- One externally triggered transition of the state machine: a reset, a
direction command, a pause toggle, or a (non-crashing) timer tick. -/
inductive Step : GameState → GameState → Prop
  | reset (g : GameState) (r : Nat) : Step g (SnakeGame.reset g r)
  | setDir (g : GameState) (d : Option Dir) : Step g (setDirection g d)
  | pause (g : GameState) : Step g (togglePause g)
  | tick (g : GameState) (r : Nat) (g1 : GameState) :
      SnakeGame.tick g r = some g1 → Step g g1

/-- States reachable from construction by any sequence of operations. -/
inductive Reach : GameState → Prop
  | init (stored : Option String) (r : Nat) : Reach (SnakeGame.construct stored r)
  | step {g g1 : GameState} : Reach g → Step g g1 → Reach g1

theorem posEquals_iff (a b : Pos) : posEquals a b = true ↔ a = b := by
  cases a; cases b
  simp [posEquals, Pos.mk.injEq, and_comm]

theorem posEquals_false_iff (a b : Pos) : posEquals a b = false ↔ a ≠ b := by
  rw [← Bool.not_eq_true, not_iff_not]
  exact posEquals_iff a b

theorem any_posEquals_iff (l : List Pos) (p : Pos) :
    (l.any (fun q => posEquals q p)) = true ↔ p ∈ l := by
  simp only [List.any_eq_true]
  constructor
  · rintro ⟨q, hq, he⟩
    rw [posEquals_iff] at he
    exact he ▸ hq
  · intro hp
    exact ⟨p, hp, (posEquals_iff p p).mpr rfl⟩

theorem isOpposite_self (d : Dir) : isOpposite d d = false := by
  cases d <;> rfl

theorem allCells_nodup : allCells.Nodup := by
  unfold allCells
  rw [List.nodup_flatMap]
  constructor
  · intro y _
    refine List.Nodup.map ?_ (List.nodup_range _)
    intro a b hab
    have hx := congrArg Pos.x hab
    simp only at hx
    exact Int.ofNat.inj hx
  · refine (List.nodup_range _).imp ?_
    intro a b hab
    intro p hpa hpb
    simp only [List.mem_map, List.mem_range] at hpa hpb
    obtain ⟨xa, _, rfl⟩ := hpa
    obtain ⟨xb, _, hb⟩ := hpb
    have hy := congrArg Pos.y hb
    simp only at hy
    exact hab (Int.ofNat.inj hy).symm

theorem mem_allCells (p : Pos) : p ∈ allCells ↔ outOfBounds p = false := by
  unfold allCells outOfBounds
  simp only [List.mem_flatMap, List.mem_map, List.mem_range, Bool.or_eq_false_iff,
    decide_eq_false_iff_not, not_lt, not_le, GRID_COLUMNS, GRID_ROWS,
    Int.ofNat_eq_natCast]
  constructor
  · rintro ⟨y, hy, x, hx, rfl⟩
    refine ⟨⟨⟨?_, ?_⟩, ?_⟩, ?_⟩ <;> simp only <;> omega
  · rintro ⟨⟨⟨hx0, hxc⟩, hy0⟩, hyr⟩
    refine ⟨p.y.toNat, by omega, p.x.toNat, by omega, ?_⟩
    cases p with
    | mk x y =>
      simp only at hx0 hy0 ⊢
      rw [Pos.mk.injEq]
      constructor <;> omega

theorem mem_emptyCells (snake : List Pos) (p : Pos) :
    p ∈ emptyCells snake ↔ p ∈ allCells ∧ p ∉ snake := by
  unfold emptyCells
  rw [List.mem_filter]
  simp

theorem emptyCells_nodup (snake : List Pos) : (emptyCells snake).Nodup :=
  allCells_nodup.filter _

theorem spawnFood_get (snake : List Pos) (i : Nat)
    (h : i < (emptyCells snake).length) :
    spawnFood snake i = (emptyCells snake).get ⟨i, h⟩ := by
  have hne : (emptyCells snake).isEmpty = false := by
    cases he : emptyCells snake with
    | nil => rw [he] at h; simp at h
    | cons a l => rfl
  simp only [spawnFood, hne, Bool.false_eq_true, if_false]
  rw [Nat.mod_eq_of_lt h]
  rw [List.getD_eq_getElem _ _ h]
  rfl

theorem spawnFood_mem (snake : List Pos) (r : Nat)
    (h : emptyCells snake ≠ []) : spawnFood snake r ∈ emptyCells snake := by
  have hne : (emptyCells snake).isEmpty = false := by simp [h]
  simp only [spawnFood, hne, Bool.false_eq_true, if_false]
  have hlt : r % (emptyCells snake).length < (emptyCells snake).length :=
    Nat.mod_lt _ (List.length_pos.mpr h)
  rw [List.getD_eq_getElem _ _ hlt]
  exact List.getElem_mem hlt

theorem spawnFood_of_full (snake : List Pos) (r : Nat)
    (h : emptyCells snake = []) : spawnFood snake r = ⟨0, 0⟩ := by
  unfold spawnFood
  rw [h]
  rfl

theorem spawnFood_not_on_snake (snake : List Pos) (r : Nat)
    (h : emptyCells snake ≠ []) : spawnFood snake r ∉ snake :=
  ((mem_emptyCells snake _).mp (spawnFood_mem snake r h)).2

/-- Full case analysis of a successful `tick`: either the pause/over guard
fires and the state is returned unchanged, or the snake is non-empty and the
tick is a collision game-over, an eating step, or a plain move. -/
theorem tick_cases (g g' : GameState) (r : Nat) (h : SnakeGame.tick g r = some g') :
    ((g.isPaused = true ∨ g.isGameOver = true) ∧ g' = g) ∨
    (g.isPaused = false ∧ g.isGameOver = false ∧
      ∃ hd tl, g.snake = hd :: tl ∧
        (((outOfBounds (nextHeadPos hd g.pendingDirection) = true ∨
             nextHeadPos hd g.pendingDirection ∈ g.snake) ∧
           g' = SnakeGame.gameOver { g with currentDirection := g.pendingDirection }) ∨
         (outOfBounds (nextHeadPos hd g.pendingDirection) = false ∧
           nextHeadPos hd g.pendingDirection ∉ g.snake ∧
           nextHeadPos hd g.pendingDirection = g.food ∧
           g' = { g with
                  currentDirection := g.pendingDirection
                  snake := nextHeadPos hd g.pendingDirection :: g.snake
                  score := g.score + 1
                  speedIntervalMs :=
                    if (g.score + 1) % SPEEDUP_EVERY_POINTS = 0 then
                      speedStep g.speedIntervalMs
                    else g.speedIntervalMs
                  food := spawnFood (nextHeadPos hd g.pendingDirection :: g.snake) r }) ∨
         (outOfBounds (nextHeadPos hd g.pendingDirection) = false ∧
           nextHeadPos hd g.pendingDirection ∉ g.snake ∧
           nextHeadPos hd g.pendingDirection ≠ g.food ∧
           g' = { g with
                  currentDirection := g.pendingDirection
                  snake := (nextHeadPos hd g.pendingDirection :: g.snake).dropLast }))) := by
  unfold SnakeGame.tick at h
  by_cases hpo : (g.isPaused || g.isGameOver) = true
  · rw [if_pos hpo] at h
    exact Or.inl ⟨Bool.or_eq_true_iff.mp hpo, (Option.some.inj h).symm⟩
  · rw [if_neg hpo] at h
    rw [Bool.or_eq_true_iff] at hpo
    push_neg at hpo
    have hp : g.isPaused = false := Bool.not_eq_true _ ▸ hpo.1
    have hgo : g.isGameOver = false := Bool.not_eq_true _ ▸ hpo.2
    refine Or.inr ⟨hp, hgo, ?_⟩
    cases hsn : g.snake with
    | nil => rw [hsn] at h; exact absurd h (by simp)
    | cons hd tl =>
      rw [hsn] at h
      simp only at h
      refine ⟨hd, tl, rfl, ?_⟩
      by_cases hob : outOfBounds (nextHeadPos hd g.pendingDirection) = true
      · rw [if_pos hob] at h
        exact Or.inl ⟨Or.inl hob, (Option.some.inj h).symm⟩
      · rw [if_neg hob] at h
        rw [Bool.not_eq_true] at hob
        by_cases hsc :
            ((hd :: tl).any
              (fun q => posEquals q (nextHeadPos hd g.pendingDirection))) = true
        · rw [if_pos hsc] at h
          rw [any_posEquals_iff] at hsc
          exact Or.inl ⟨Or.inr hsc, (Option.some.inj h).symm⟩
        · rw [if_neg hsc] at h
          have hsc2 : nextHeadPos hd g.pendingDirection ∉ hd :: tl := by
            rw [← any_posEquals_iff (hd :: tl)]
            exact fun hx => hsc hx
          by_cases hfd :
              posEquals (nextHeadPos hd g.pendingDirection) g.food = true
          · rw [if_pos hfd] at h
            rw [posEquals_iff] at hfd
            exact Or.inr (Or.inl ⟨hob, hsc2, hfd, (Option.some.inj h).symm⟩)
          · rw [if_neg hfd] at h
            rw [Bool.not_eq_true, posEquals_false_iff] at hfd
            exact Or.inr (Or.inr ⟨hob, hsc2, hfd, (Option.some.inj h).symm⟩)

theorem setDirection_keeps (g : GameState) (d : Option Dir) :
    (setDirection g d).score = g.score ∧
    (setDirection g d).bestScore = g.bestScore ∧
    (setDirection g d).isPaused = g.isPaused ∧
    (setDirection g d).isGameOver = g.isGameOver ∧
    (setDirection g d).speedIntervalMs = g.speedIntervalMs ∧
    (setDirection g d).currentDirection = g.currentDirection ∧
    (setDirection g d).snake = g.snake ∧
    (setDirection g d).food = g.food ∧
    (setDirection g d).storage = g.storage := by
  cases d with
  | none => simp [setDirection]
  | some d0 =>
    by_cases hopp : isOpposite d0 g.currentDirection = true <;>
      simp [setDirection, hopp]

theorem togglePause_keeps (g : GameState) :
    (togglePause g).score = g.score ∧
    (togglePause g).bestScore = g.bestScore ∧
    (togglePause g).isGameOver = g.isGameOver ∧
    (togglePause g).speedIntervalMs = g.speedIntervalMs ∧
    (togglePause g).pendingDirection = g.pendingDirection ∧
    (togglePause g).currentDirection = g.currentDirection ∧
    (togglePause g).snake = g.snake ∧
    (togglePause g).food = g.food ∧
    (togglePause g).storage = g.storage := by
  by_cases hgo : g.isGameOver = true <;> simp [togglePause, hgo]

theorem gameOver_keeps (g : GameState) :
    (SnakeGame.gameOver g).score = g.score ∧
    (SnakeGame.gameOver g).isPaused = g.isPaused ∧
    (SnakeGame.gameOver g).isGameOver = true ∧
    (SnakeGame.gameOver g).speedIntervalMs = g.speedIntervalMs ∧
    (SnakeGame.gameOver g).pendingDirection = g.pendingDirection ∧
    (SnakeGame.gameOver g).currentDirection = g.currentDirection ∧
    (SnakeGame.gameOver g).snake = g.snake ∧
    (SnakeGame.gameOver g).food = g.food := by
  by_cases hgt : jsGt g.score g.bestScore = true <;>
    simp [SnakeGame.gameOver, hgt]

theorem gameOver_best (g : GameState) (b : Int) (hb : g.bestScore = some b) :
    (SnakeGame.gameOver g).bestScore =
      (if b < (g.score : Int) then some ((g.score : Int)) else some b) ∧
    (SnakeGame.gameOver g).storage =
      (if b < (g.score : Int) then some (toString g.score) else g.storage) := by
  unfold SnakeGame.gameOver jsGt
  by_cases hlt : b < (g.score : Int)
  · simp [hb, hlt, gt_iff_lt]
  · simp [hb, hlt, gt_iff_lt]

theorem gameOver_best_none (g : GameState) (hb : g.bestScore = none) :
    (SnakeGame.gameOver g).bestScore = none ∧
    (SnakeGame.gameOver g).storage = g.storage := by
  simp [SnakeGame.gameOver, jsGt, hb]

theorem step_no_reverse (g g1 : GameState) (hstep : Step g g1)
    (ih : isOpposite g.pendingDirection g.currentDirection = false) :
    isOpposite g1.pendingDirection g1.currentDirection = false := by
  cases hstep with
  | reset r => rfl
  | setDir d =>
    cases d with
    | none => exact ih
    | some d0 =>
      by_cases hopp : isOpposite d0 g.currentDirection = true
      · have hsd : setDirection g (some d0) = g := by simp [setDirection, hopp]
        rw [hsd]; exact ih
      · have hf : isOpposite d0 g.currentDirection = false :=
          Bool.not_eq_true _ ▸ hopp
        have hsd : setDirection g (some d0) = { g with pendingDirection := d0 } := by
          simp [setDirection, hf]
        rw [hsd]; exact hf
  | pause =>
    unfold togglePause
    split
    · exact ih
    · exact ih
  | tick r _g2 htick =>
    rcases tick_cases g g1 r htick with ⟨_, rfl⟩ |
      ⟨hp, hgo, hd, tl, hsn, ⟨hc, rfl⟩ | ⟨_, _, _, rfl⟩ | ⟨_, _, _, rfl⟩⟩
    · exact ih
    · rw [(gameOver_keeps _).2.2.2.2.1, (gameOver_keeps _).2.2.2.2.2.1]
      exact isOpposite_self _
    · exact isOpposite_self _
    · exact isOpposite_self _

theorem reach_no_reverse (g : GameState) (h : Reach g) :
    isOpposite g.pendingDirection g.currentDirection = false := by
  induction h with
  | init stored r => rfl
  | step hg hstep ih => exact step_no_reverse _ _ hstep ih

theorem initialSnake_nodup : initialSnake.Nodup := by decide

theorem step_snake_nodup (g g1 : GameState) (hstep : Step g g1)
    (ih : g.snake.Nodup) : g1.snake.Nodup := by
  cases hstep with
  | reset r => exact initialSnake_nodup
  | setDir d => rw [(setDirection_keeps g d).2.2.2.2.2.2.1]; exact ih
  | pause => rw [(togglePause_keeps g).2.2.2.2.2.2.1]; exact ih
  | tick r _g2 htick =>
    rcases tick_cases g g1 r htick with ⟨_, rfl⟩ |
      ⟨hp, hgo, hd, tl, hsn, ⟨hc, rfl⟩ | ⟨hob, hsc, hfd, rfl⟩ | ⟨hob, hsc, hfd, rfl⟩⟩
    · exact ih
    · rw [(gameOver_keeps _).2.2.2.2.2.2.1]; exact ih
    · exact List.nodup_cons.mpr ⟨hsc, ih⟩
    · exact (List.dropLast_sublist _).nodup (List.nodup_cons.mpr ⟨hsc, ih⟩)

theorem reach_snake_nodup (g : GameState) (h : Reach g) : g.snake.Nodup := by
  induction h with
  | init stored r => exact initialSnake_nodup
  | step hg hstep ih => exact step_snake_nodup _ _ hstep ih

theorem gameOver_best_mono (g : GameState) (b : Int) (hb : g.bestScore = some b) :
    ∃ c : Int, (SnakeGame.gameOver g).bestScore = some c ∧ b ≤ c := by
  rcases gameOver_best g b hb with ⟨hbest, _⟩
  by_cases hlt : b < (g.score : Int)
  · exact ⟨(g.score : Int), by rw [hbest, if_pos hlt], le_of_lt hlt⟩
  · exact ⟨b, by rw [hbest, if_neg hlt], le_refl b⟩

/-- C2: `setDirection(d)` is a no-op when `d` is null or the exact negation
of `currentDirection` and otherwise stages `d` as `pendingDirection`; in
every reachable state `pendingDirection` is never the negation of
`currentDirection`, so the direction a tick commits is never the negation
of the direction in force before that tick. -/
theorem c2_set_direction_no_reverse :
    (∀ g : GameState, setDirection g none = g) ∧
    (∀ (g : GameState) (d : Dir), isOpposite d g.currentDirection = true →
        setDirection g (some d) = g) ∧
    (∀ (g : GameState) (d : Dir), isOpposite d g.currentDirection = false →
        setDirection g (some d) = { g with pendingDirection := d }) ∧
    (∀ g : GameState, Reach g →
        isOpposite g.pendingDirection g.currentDirection = false) ∧
    (∀ (g g1 : GameState) (r : Nat), Reach g → SnakeGame.tick g r = some g1 →
        isOpposite g1.currentDirection g.currentDirection = false) := by
  refine ⟨fun g => rfl, ?_, ?_, reach_no_reverse, ?_⟩
  · intro g d h
    simp [setDirection, h]
  · intro g d h
    simp [setDirection, h]
  · intro g g1 r hre ht
    rcases tick_cases g g1 r ht with ⟨_, rfl⟩ |
      ⟨hp, hgo, hd, tl, hsn, ⟨hc, rfl⟩ | ⟨_, _, _, rfl⟩ | ⟨_, _, _, rfl⟩⟩
    · exact isOpposite_self _
    · rw [(gameOver_keeps _).2.2.2.2.2.1]
      exact reach_no_reverse g hre
    · exact reach_no_reverse g hre
    · exact reach_no_reverse g hre

/-- Witness for C2 at concrete inputs: staging the reversal `Left` against
the initial `Right` is rejected, and the freshly constructed state has no
staged reversal. -/
theorem c2_witness :
    setDirection (SnakeGame.construct none 0) (some Dir.Left) =
      SnakeGame.construct none 0 ∧
    isOpposite (SnakeGame.construct none 0).pendingDirection
      (SnakeGame.construct none 0).currentDirection = false :=
  ⟨c2_set_direction_no_reverse.2.1 _ Dir.Left (by decide),
   c2_set_direction_no_reverse.2.2.2.1 _ (Reach.init none 0)⟩

/-- C3: a tick in the running state ends in game over exactly when the
candidate next head leaves the grid or hits a snake segment, and such a
tick leaves the snake, score, food and speed interval unchanged;
`setDirection` and `togglePause` never change the game-over flag, `reset`
clears it, and a paused/over tick returns the state unchanged. -/
theorem c3_game_over_iff_collision :
    (∀ (g g1 : GameState) (r : Nat) (hd : Pos) (tl : List Pos),
        g.isPaused = false → g.isGameOver = false → g.snake = hd :: tl →
        SnakeGame.tick g r = some g1 →
        ((g1.isGameOver = true ↔
            (outOfBounds (nextHeadPos hd g.pendingDirection) = true ∨
              nextHeadPos hd g.pendingDirection ∈ g.snake)) ∧
          (g1.isGameOver = true →
            g1.snake = g.snake ∧ g1.score = g.score ∧ g1.food = g.food ∧
              g1.speedIntervalMs = g.speedIntervalMs))) ∧
    (∀ (g : GameState) (d : Option Dir),
        (setDirection g d).isGameOver = g.isGameOver) ∧
    (∀ g : GameState, (togglePause g).isGameOver = g.isGameOver) ∧
    (∀ (g : GameState) (r : Nat), (SnakeGame.reset g r).isGameOver = false) ∧
    (∀ (g g1 : GameState) (r : Nat), g.isPaused = true ∨ g.isGameOver = true →
        SnakeGame.tick g r = some g1 → g1 = g) := by
  refine ⟨?_, fun g d => (setDirection_keeps g d).2.2.2.1,
    fun g => (togglePause_keeps g).2.2.1, fun g r => rfl, ?_⟩
  · intro g g1 r hd tl hp hgo hsnake ht
    rcases tick_cases g g1 r ht with ⟨hpo, rfl⟩ |
      ⟨_, _, hd2, tl2, hsn2, hcase⟩
    · rcases hpo with hx | hx
      · simp [hx] at hp
      · simp [hx] at hgo
    · injection (hsnake.symm.trans hsn2) with h1 h2
      subst h1
      subst h2
      rcases hcase with ⟨hc, rfl⟩ | ⟨hob, hsc, hfd, rfl⟩ | ⟨hob, hsc, hfd, rfl⟩
      · refine ⟨⟨fun _ => hc, fun _ => (gameOver_keeps _).2.2.1⟩, fun _ => ?_⟩
        exact ⟨(gameOver_keeps _).2.2.2.2.2.2.1, (gameOver_keeps _).1,
          (gameOver_keeps _).2.2.2.2.2.2.2, (gameOver_keeps _).2.2.2.1⟩
      · constructor
        · constructor
          · intro hx
            exact absurd hx (by simp [hgo])
          · rintro (hx | hx)
            · rw [hob] at hx; cases hx
            · exact absurd hx hsc
        · intro hx
          exact absurd hx (by simp [hgo])
      · constructor
        · constructor
          · intro hx
            exact absurd hx (by simp [hgo])
          · rintro (hx | hx)
            · rw [hob] at hx; cases hx
            · exact absurd hx hsc
        · intro hx
          exact absurd hx (by simp [hgo])
  · intro g g1 r h ht
    rcases tick_cases g g1 r ht with ⟨_, rfl⟩ | ⟨hp, hgo, _, _, _, _⟩
    · rfl
    · rcases h with hx | hx
      · simp [hx] at hp
      · simp [hx] at hgo

set_option maxRecDepth 10000 in
/-- Witness for C3 at concrete inputs: an eating tick from
`witnessEatState` does not end the game, and a tick on the paused state is
the identity. -/
theorem c3_witness :
    (witnessEatResult.isGameOver = true ↔
      (outOfBounds (nextHeadPos ⟨0, 0⟩ witnessEatState.pendingDirection) = true ∨
        nextHeadPos ⟨0, 0⟩ witnessEatState.pendingDirection ∈ witnessEatState.snake)) ∧
    pausedWitnessState = pausedWitnessState :=
  ⟨(c3_game_over_iff_collision.1 witnessEatState witnessEatResult 0 ⟨0, 0⟩ []
      rfl rfl rfl (by decide)).1,
   c3_game_over_iff_collision.2.2.2.2 pausedWitnessState pausedWitnessState 0
     (Or.inl rfl) (by decide)⟩

/-- C8: when the state is paused or game over, any number of `tick()` calls
returns the state entirely unchanged. -/
theorem c8_tick_noop_paused_or_over (g : GameState)
    (h : g.isPaused = true ∨ g.isGameOver = true) (rs : List Nat) :
    tickSeq g rs = some g := by
  induction rs with
  | nil => rfl
  | cons r rs ih =>
    have ht : SnakeGame.tick g r = some g := by
      unfold SnakeGame.tick
      rcases h with hx | hx <;> rw [hx] <;> simp
    unfold tickSeq
    rw [ht]
    exact ih

/-- Witness for C8: three ticks on a concrete paused state change nothing. -/
theorem c8_witness : tickSeq pausedWitnessState [0, 1, 2] = some pausedWitnessState :=
  c8_tick_noop_paused_or_over pausedWitnessState (Or.inl rfl) [0, 1, 2]

/-- C10: in every state reachable from construction by resets, direction
commands, pause toggles and ticks, the snake has no two equal positions;
there is no transient overlap even at a game-ending tick, since that tick
leaves the snake unchanged. -/
theorem c10_reachable_snake_nodup (g : GameState) (h : Reach g) :
    g.snake.Nodup :=
  reach_snake_nodup g h

/-- Witness for C10: the freshly constructed state has a duplicate-free
snake. -/
theorem c10_witness : (SnakeGame.construct none 0).snake.Nodup :=
  c10_reachable_snake_nodup (SnakeGame.construct none 0) (Reach.init none 0)

set_option maxRecDepth 10000 in
/-- C1 fails on the code: `reset()` pushes the segments from `startX - 3`
up to `startX`, so the head `snake[0]` is the leftmost cell `(4, 10)` of a
snake that extends rightwards to `(7, 10)` while moving Right.  The cell
directly ahead of the head, `(5, 10)`, is `snake[1]`, so no food can ever
be there, and the first tick ends the game by self-collision with length
still 4 and score 0 instead of growing to length 5 with score 1. -/
theorem c1_first_tick_self_collides :
    (SnakeGame.construct none 0).snake =
      [⟨4, 10⟩, ⟨5, 10⟩, ⟨6, 10⟩, ⟨7, 10⟩] ∧
    (SnakeGame.construct none 0).currentDirection = Dir.Right ∧
    nextHeadPos ⟨4, 10⟩ Dir.Right = ⟨5, 10⟩ ∧
    (SnakeGame.tick (SnakeGame.construct none 0) 0).map
      (fun g => (g.isGameOver, g.score, g.snake.length)) =
      some (true, 0, 4) := by
  refine ⟨by decide, rfl, by decide, by decide⟩

/-- C4: a successful tick changes the snake length by exactly one when the
tick eats the food and leaves it unchanged otherwise, including game-ending
and guarded ticks; the hypotheses say the food lies inside the grid and off
the snake, which hold in every reachable state. -/
theorem c4_length_change (g g1 : GameState) (r : Nat)
    (hfood_in : outOfBounds g.food = false)
    (hfood_off : g.food ∉ g.snake)
    (h : SnakeGame.tick g r = some g1) :
    g1.snake.length = g.snake.length + (if willEatFood g then 1 else 0) := by
  have hred : ∀ hd tl, g.isPaused = false → g.isGameOver = false →
      g.snake = hd :: tl →
      willEatFood g = posEquals (nextHeadPos hd g.pendingDirection) g.food := by
    intro hd tl hp hgo hsn
    unfold willEatFood
    rw [hp, hgo, hsn]
    simp
  rcases tick_cases g g1 r h with ⟨hpo, rfl⟩ |
    ⟨hp, hgo, hd, tl, hsn, ⟨hc, rfl⟩ | ⟨hob, hsc, hfd, rfl⟩ | ⟨hob, hsc, hfd, rfl⟩⟩
  · have hw : willEatFood g1 = false := by
      unfold willEatFood
      rcases hpo with hx | hx <;> simp [hx]
    rw [hw]
    simp
  · have hw : willEatFood g = false := by
      rw [hred hd tl hp hgo hsn, posEquals_false_iff]
      intro heq
      rcases hc with hx | hx
      · rw [heq, hfood_in] at hx; cases hx
      · rw [heq] at hx; exact hfood_off hx
    rw [hw]
    simp only [Bool.false_eq_true, if_false, Nat.add_zero]
    rw [(gameOver_keeps _).2.2.2.2.2.2.1]
  · have hw : willEatFood g = true := by
      rw [hred hd tl hp hgo hsn, posEquals_iff]
      exact hfd
    rw [hw]
    simp only [if_true]
    show (nextHeadPos hd g.pendingDirection :: g.snake).length =
      g.snake.length + 1
    simp
  · have hw : willEatFood g = false := by
      rw [hred hd tl hp hgo hsn, posEquals_false_iff]
      exact hfd
    rw [hw]
    simp only [Bool.false_eq_true, if_false, Nat.add_zero]
    show ((nextHeadPos hd g.pendingDirection :: g.snake).dropLast).length =
      g.snake.length
    rw [List.length_dropLast]
    simp

set_option maxRecDepth 10000 in
/-- Witness for C4: the concrete eating tick grows the snake from one
segment to two. -/
theorem c4_witness :
    witnessEatResult.snake.length =
      witnessEatState.snake.length + (if willEatFood witnessEatState then 1 else 0) :=
  c4_length_change witnessEatState witnessEatResult 0 (by decide) (by decide)
    (by decide)

/-- C5: an eating tick increments the score by one and, exactly when the
new score is a multiple of 5, replaces the interval by
`max 45 (interval * 92 / 100)` — an 8 percent decrease floored to an
integer and clamped at the 45 ms minimum; the stepped interval is always
at least 45 and never exceeds the old one, every successful tick keeps the
interval non-increasing and at least 45, and no other operation inside a
session changes it. -/
theorem c5_score_and_speedup :
    (∀ (g g1 : GameState) (r : Nat) (hd : Pos) (tl : List Pos),
        g.isPaused = false → g.isGameOver = false → g.snake = hd :: tl →
        outOfBounds (nextHeadPos hd g.pendingDirection) = false →
        nextHeadPos hd g.pendingDirection ∉ g.snake →
        nextHeadPos hd g.pendingDirection = g.food →
        SnakeGame.tick g r = some g1 →
        g1.score = g.score + 1 ∧
          g1.speedIntervalMs =
            (if (g.score + 1) % SPEEDUP_EVERY_POINTS = 0 then
                max 45 (g.speedIntervalMs * 92 / 100)
              else g.speedIntervalMs)) ∧
    (∀ s : Nat, 45 ≤ speedStep s ∧ (45 ≤ s → speedStep s ≤ s)) ∧
    (∀ (g g1 : GameState) (r : Nat), SnakeGame.tick g r = some g1 →
        45 ≤ g.speedIntervalMs →
        g1.speedIntervalMs ≤ g.speedIntervalMs ∧ 45 ≤ g1.speedIntervalMs) ∧
    (∀ (g : GameState) (d : Option Dir),
        (setDirection g d).speedIntervalMs = g.speedIntervalMs) ∧
    (∀ g : GameState, (togglePause g).speedIntervalMs = g.speedIntervalMs) := by
  have hstep : ∀ s : Nat, 45 ≤ speedStep s ∧ (45 ≤ s → speedStep s ≤ s) := by
    intro s
    unfold speedStep
    constructor
    · exact Nat.le_max_left _ _
    · intro h45
      refine Nat.max_le.mpr ⟨h45, ?_⟩
      omega
  refine ⟨?_, hstep, ?_, fun g d => (setDirection_keeps g d).2.2.2.2.1,
    fun g => (togglePause_keeps g).2.2.2.1⟩
  · intro g g1 r hd tl hp hgo hsnake hob0 hsc0 hfd0 ht
    rcases tick_cases g g1 r ht with ⟨hpo, rfl⟩ |
      ⟨_, _, hd2, tl2, hsn2, hcase⟩
    · rcases hpo with hx | hx
      · simp [hx] at hp
      · simp [hx] at hgo
    · injection (hsnake.symm.trans hsn2) with h1 h2
      subst h1
      subst h2
      rcases hcase with ⟨hc, rfl⟩ | ⟨hob, hsc, hfd, rfl⟩ | ⟨hob, hsc, hfd, rfl⟩
      · rcases hc with hx | hx
        · rw [hob0] at hx; cases hx
        · exact absurd hx hsc0
      · exact ⟨rfl, rfl⟩
      · exact absurd hfd0 hfd
  · intro g g1 r ht h45
    rcases tick_cases g g1 r ht with ⟨_, rfl⟩ |
      ⟨hp, hgo, hd, tl, hsn, ⟨hc, rfl⟩ | ⟨hob, hsc, hfd, rfl⟩ | ⟨hob, hsc, hfd, rfl⟩⟩
    · exact ⟨Nat.le_refl _, h45⟩
    · rw [(gameOver_keeps _).2.2.2.1]
      exact ⟨Nat.le_refl _, h45⟩
    · show (if (g.score + 1) % SPEEDUP_EVERY_POINTS = 0 then
          speedStep g.speedIntervalMs else g.speedIntervalMs) ≤ g.speedIntervalMs ∧
        45 ≤ (if (g.score + 1) % SPEEDUP_EVERY_POINTS = 0 then
          speedStep g.speedIntervalMs else g.speedIntervalMs)
      by_cases hm : (g.score + 1) % SPEEDUP_EVERY_POINTS = 0
      · rw [if_pos hm]
        exact ⟨(hstep g.speedIntervalMs).2 h45, (hstep g.speedIntervalMs).1⟩
      · rw [if_neg hm]
        exact ⟨Nat.le_refl _, h45⟩
    · exact ⟨Nat.le_refl _, h45⟩

set_option maxRecDepth 10000 in
/-- Witness for C5: the concrete eating tick takes the score from 4 to 5,
a multiple of 5, and steps the interval from 120 to
`max 45 (120 * 92 / 100) = 110`. -/
theorem c5_witness :
    witnessEatResult.score = witnessEatState.score + 1 ∧
      witnessEatResult.speedIntervalMs =
        (if (witnessEatState.score + 1) % SPEEDUP_EVERY_POINTS = 0 then
            max 45 (witnessEatState.speedIntervalMs * 92 / 100)
          else witnessEatState.speedIntervalMs) :=
  c5_score_and_speedup.1 witnessEatState witnessEatResult 0 ⟨0, 0⟩ []
    rfl rfl rfl (by decide) (by decide) (by decide) (by decide)

/-- C6: `gameOver()` replaces the stored best score with the current score
exactly when the score strictly exceeds the (numeric) best, `reset()`
leaves both the in-memory best and the stored value untouched, and every
operation of the state machine keeps a numeric best score non-decreasing. -/
theorem c6_best_score_monotone :
    (∀ (g : GameState) (b : Int), g.bestScore = some b →
        (SnakeGame.gameOver g).bestScore =
            (if b < (g.score : Int) then some ((g.score : Int)) else some b) ∧
          (SnakeGame.gameOver g).storage =
            (if b < (g.score : Int) then some (toString g.score) else g.storage)) ∧
    (∀ (g : GameState) (r : Nat),
        (SnakeGame.reset g r).bestScore = g.bestScore ∧
          (SnakeGame.reset g r).storage = g.storage) ∧
    (∀ (g g1 : GameState), Step g g1 → ∀ b : Int, g.bestScore = some b →
        ∃ c : Int, g1.bestScore = some c ∧ b ≤ c) := by
  refine ⟨gameOver_best, fun g r => ⟨rfl, rfl⟩, ?_⟩
  intro g g1 hstep b hb
  cases hstep with
  | reset r => exact ⟨b, hb, le_refl b⟩
  | setDir d => exact ⟨b, by rw [(setDirection_keeps g d).2.1]; exact hb, le_refl b⟩
  | pause => exact ⟨b, by rw [(togglePause_keeps g).2.1]; exact hb, le_refl b⟩
  | tick r _g2 htick =>
    rcases tick_cases g g1 r htick with ⟨_, rfl⟩ |
      ⟨hp, hgo, hd, tl, hsn, ⟨hc, rfl⟩ | ⟨_, _, _, rfl⟩ | ⟨_, _, _, rfl⟩⟩
    · exact ⟨b, hb, le_refl b⟩
    · exact gameOver_best_mono _ b hb
    · exact ⟨b, hb, le_refl b⟩
    · exact ⟨b, hb, le_refl b⟩

/-- Witness for C6: on the concrete state with best 0 and score 4,
`gameOver` persists 4, and a reset keeps a numeric best score. -/
theorem c6_witness :
    ((SnakeGame.gameOver witnessEatState).bestScore =
        (if (0 : Int) < (witnessEatState.score : Int) then
            some ((witnessEatState.score : Int))
          else some 0) ∧
      (SnakeGame.gameOver witnessEatState).storage =
        (if (0 : Int) < (witnessEatState.score : Int) then
            some (toString witnessEatState.score)
          else witnessEatState.storage)) ∧
    (∃ c : Int, (SnakeGame.reset witnessEatState 0).bestScore = some c ∧
      (0 : Int) ≤ c) :=
  ⟨c6_best_score_monotone.1 witnessEatState 0 rfl,
   c6_best_score_monotone.2.2 witnessEatState (SnakeGame.reset witnessEatState 0)
     (Step.reset witnessEatState 0) 0 rfl⟩

/-- C7 fails on the code: the constructor computes
`Number(stored || 0)`, which is 0 for a missing key or empty string and
the stored integer for a decimal string, but `NaN` (not 0) for a
non-numeric stored value such as "abc". -/
theorem c7_corrupt_stored_best_is_nan :
    loadBestScore none = some 0 ∧
    loadBestScore (some "") = some 0 ∧
    loadBestScore (some "37") = some 37 ∧
    loadBestScore (some "abc") = none ∧
    jsGt 100 (loadBestScore (some "abc")) = false := by
  refine ⟨rfl, rfl, by decide, by decide, by decide⟩

/-- C9: `spawnFood` restricted to draws below the number of empty cells
enumerates exactly the duplicate-free list of cells not occupied by the
snake — so a uniform draw lands on each unoccupied cell with equal
probability — never returns an occupied cell while an empty one exists,
and degrades to the corner `(0, 0)` exactly when the snake covers the whole
grid. -/
theorem c9_spawn_food_spec :
    (∀ (snake : List Pos) (p : Pos),
        p ∈ emptyCells snake ↔ p ∈ allCells ∧ p ∉ snake) ∧
    (∀ snake : List Pos, (emptyCells snake).Nodup) ∧
    (∀ (snake : List Pos) (i : Nat) (h : i < (emptyCells snake).length),
        spawnFood snake i = (emptyCells snake).get ⟨i, h⟩) ∧
    (∀ (snake : List Pos) (r : Nat), emptyCells snake ≠ [] →
        spawnFood snake r ∉ snake) ∧
    (∀ (snake : List Pos) (r : Nat), emptyCells snake = [] →
        spawnFood snake r = ⟨0, 0⟩) ∧
    (∀ snake : List Pos, emptyCells snake = [] ↔ ∀ p ∈ allCells, p ∈ snake) := by
  refine ⟨mem_emptyCells, emptyCells_nodup, spawnFood_get,
    spawnFood_not_on_snake, spawnFood_of_full, ?_⟩
  intro snake
  unfold emptyCells
  rw [List.filter_eq_nil_iff]
  constructor
  · intro h p hp
    have := h p hp
    simpa using this
  · intro h p hp
    simpa using h p hp

set_option maxRecDepth 10000 in
/-- Witness for C9 at concrete inputs: the draw indexes the empty-cell
list, a spawn avoids a one-cell snake, and a grid-filling snake forces the
corner fallback. -/
theorem c9_witness :
    spawnFood [] 0 = (emptyCells []).get ⟨0, by decide⟩ ∧
    spawnFood [(⟨0, 0⟩ : Pos)] 5 ∉ [(⟨0, 0⟩ : Pos)] ∧
    spawnFood allCells 3 = ⟨0, 0⟩ :=
  ⟨c9_spawn_food_spec.2.2.1 [] 0 (by decide),
   c9_spawn_food_spec.2.2.2.1 [⟨0, 0⟩] 5 (by decide),
   c9_spawn_food_spec.2.2.2.2.1 allCells 3 (by decide)⟩

end Snake
